import Mathlib

/-!
Verification of the job-tracking and progress-aggregation core of the
`mp4_2_mp3` repository (`src/web_app.py` and `src/mp4_2_mp3.py`).

The Python code is shallowly embedded as executable Lean definitions:

* `pyRound`, `clamp100`, `Bar`, `barTotal`, `barCompleted`,
  `callbackFraction`, `callbackPercent` embed
  `JobProgressLogger.callback` (web_app.py lines 85-113), the progress
  normalizer.  Python floats are modelled as rationals; Python `round`
  rounds half to even.
* `ConversionJob` embeds the dataclass of the same name; the three
  counters and `current_progress` are Python ints, modelled as `ℤ`.
* `runFile` / `runFiles` / `processJob` embed `_process_job`
  (lines 190-287).  Each call to `_update_job` is modelled by `pushJob`,
  which records the updated job in a `trace` of states observable by a
  concurrent `/status` reader between lock-protected updates.  The
  behaviour of the external `video_to_audio_file` call for each file is
  an input (`FileOutcome`): it either succeeds, raises
  `ModuleNotFoundError` (fatal; moviepy missing), or raises some other
  exception (recoverable).  The progress events the call delivers to the
  logger are an input list of `Bar`s.  Note that the Python `finally`
  block runs even on the `return` inside `except ModuleNotFoundError`.
* `zipEntriesOf` embeds the ZIP packaging (lines 265-273): the archive
  is modelled by its list of entry names.
* `sanitize_relative_path` embeds `_sanitize_relative_path`
  (lines 57-62) together with the POSIX `pathlib` parsing it relies on:
  `Path(s).parts` drops empty and `"."` components, keeps `".."`, and
  keeps a leading `"/"` root part; `Path(s).name` is the last non-root
  component or `""`.
* `lookupJob`, `removeJob`, `download` embed the `/download/<job_id>`
  endpoint (lines 314-336) over an association-list job store; the
  `after_this_request` cleanup (pop the job, remove `temp_dir`) is part
  of the returned triple.
* `pyStem`, `pySuffix`, `iterVideoFiles`, `video_to_audio_folder` embed
  `mp4_2_mp3.py`: `pathlib` stems/suffixes, `_iter_video_files`, and
  `video_to_audio_folder`, with the per-file conversion outcome as an
  input function.
-/

/-- Python `round` on a rational: round to nearest, ties to even
(the behaviour of `int(round(x))` in `JobProgressLogger.callback`). -/
def pyRound (q : ℚ) : ℤ :=
  if q - ⌊q⌋ < 1 / 2 then ⌊q⌋
  else if 1 / 2 < q - ⌊q⌋ then ⌊q⌋ + 1
  else if ⌊q⌋ % 2 = 0 then ⌊q⌋ else ⌊q⌋ + 1

/-- Embeds `max(0, min(100, z))` from `JobProgressLogger.callback`. -/
def clamp100 (z : ℤ) : ℤ := max 0 (min 100 z)

/-- One proglog bar dictionary as probed by `JobProgressLogger.callback`:
the keys read are `fraction`, `total`, `n`, `index`, `value`, `current`.
A missing key is `none`. -/
structure Bar where
  fraction : Option ℚ
  total : Option ℚ
  n : Option ℚ
  index : Option ℚ
  value : Option ℚ
  current : Option ℚ
deriving DecidableEq

/-- A bar with no keys set, e.g. the `{}` event. -/
def Bar.empty : Bar := ⟨none, none, none, none, none, none⟩

/-- Python truthy-`or` on an optional number: `v or d` where a missing
key and a zero value are both falsy. -/
def pyOr (v : Option ℚ) (d : ℚ) : ℚ :=
  match v with
  | some t => if t = 0 then d else t
  | none => d

/-- Embeds `total = bar.get("total") or bar.get("n") or 0`. -/
def barTotal (b : Bar) : ℚ := pyOr b.total (pyOr b.n 0)

/-- Embeds the `completed = bar.get("index") / bar.get("value") /
bar.get("current")` fallback chain (`is None` tests, so a present zero
is kept). -/
def barCompleted (b : Bar) : Option ℚ :=
  match b.index with
  | some c => some c
  | none =>
    match b.value with
    | some c => some c
    | none => b.current

/-- The fraction derived by `JobProgressLogger.callback` from one bar:
a directly reported `fraction` wins; otherwise `completed / total` when
`total` is truthy and a completed count is present; otherwise `none`
(the event is dropped). -/
def callbackFraction (b : Bar) : Option ℚ :=
  match b.fraction with
  | some f => some f
  | none =>
    match barCompleted b with
    | some c => if barTotal b = 0 then none else some (c / barTotal b)
    | none => none

/-- Embeds `max(0, min(100, int(round(float(fraction) * 100))))`. -/
def percentOf (f : ℚ) : ℤ := clamp100 (pyRound (f * 100))

/-- The percentage published by `JobProgressLogger.callback` for one
bar event, `none` when the event is dropped with no update. -/
def callbackPercent (b : Bar) : Option ℤ := (callbackFraction b).map percentOf

/-- The percentages published for a sequence of delivered events. -/
def publishedSeq (evs : List Bar) : List ℤ := evs.filterMap callbackPercent

/-! ### Paths

Relative paths are modelled as strings with `/` separators, as produced
by `Path.as_posix()`. -/

/-- Split a character list at every separator (like Python
`str.split(sep)`). -/
def splitChars (sep : Char) : List Char → List (List Char)
  | [] => [[]]
  | c :: rest =>
    if c = sep then [] :: splitChars sep rest
    else
      match splitChars sep rest with
      | [] => [[c]]
      | g :: gs => (c :: g) :: gs

/-- Split a path string on `/`. -/
def splitSlash (s : String) : List String :=
  (splitChars '/' s.data).map (fun cs => String.mk cs)

/-- Join path components with `/`. -/
def joinSlash : List String → String
  | [] => ""
  | [p] => p
  | p :: ps => p ++ "/" ++ joinSlash ps

/-- Index of the last `'.'` in a file name (`str.rfind('.')`). -/
def rfindDot (cs : List Char) : Option Nat :=
  ((List.range cs.length).filter (fun i => cs.getD i ' ' = '.')).getLast?

/-- Embeds `PurePath.stem`: the final component without its suffix; a
dot at position 0 or at the very end does not start a suffix. -/
def pyStem (name : String) : String :=
  match rfindDot name.data with
  | some i =>
    if 0 < i ∧ i < name.data.length - 1 then String.mk (name.data.take i) else name
  | none => name

/-- Embeds `PurePath.suffix`: the extension of the final component,
including the dot, or `""`. -/
def pySuffix (name : String) : String :=
  match rfindDot name.data with
  | some i =>
    if 0 < i ∧ i < name.data.length - 1 then String.mk (name.data.drop i) else ""
  | none => ""

/-- Final component of a relative path string. -/
def baseName (s : String) : String := (splitSlash s).getLastD ""

/-- Leading directory part of a relative path string, with a trailing
slash when non-empty. -/
def dirPart (s : String) : String :=
  match (splitSlash s).dropLast with
  | [] => ""
  | ps => joinSlash ps ++ "/"

/-- Embeds `relative.with_suffix(".mp3")` from `_process_job`: replace
the extension of the final component by `.mp3`. -/
def withSuffixMp3 (s : String) : String :=
  dirPart s ++ pyStem (baseName s) ++ ".mp3"

/-! ### The job record and the worker -/

/-- Job states of the `ConversionJob.status` string field. -/
inductive JobStatus where
  | pending
  | running
  | completed
  | failed
deriving DecidableEq

/-- Embeds the `ConversionJob` dataclass of `web_app.py`.  Python ints
are modelled as `ℤ`; `Path` fields as strings. -/
structure ConversionJob where
  id : String
  status : JobStatus
  total_files : ℤ
  converted : ℤ
  processed_files : ℤ
  errors : List String
  message : Option String
  download_path : Option String
  temp_dir : Option String
  generated_files : List String
  unsupported_files : List String
  current_file : Option String
  current_progress : ℤ
deriving DecidableEq

/-- The job record created by the `/convert` route for a new batch. -/
def mkJob (i : String) (total : ℤ) (tmp : Option String) (unsupported : List String) :
    ConversionJob :=
  { id := i, status := .pending, total_files := total, converted := 0,
    processed_files := 0, errors := [], message := some "Preparing conversion...",
    download_path := none, temp_dir := tmp, generated_files := [],
    unsupported_files := unsupported, current_file := none, current_progress := 0 }

/-- Behaviour of the external `video_to_audio_file` call on one file:
it returns normally, raises `ModuleNotFoundError` (moviepy missing), or
raises any other exception. -/
inductive FileOutcome where
  | success
  | fatal (msg : String)
  | recoverable (msg : String)
deriving DecidableEq

/-- One queued file as seen by `_process_job`: its path relative to the
upload directory (as a posix string), the progress events its
conversion delivers to the logger, and how the conversion call ends. -/
structure FileJob where
  relative : String
  events : List Bar
  outcome : FileOutcome
deriving DecidableEq

/-- Worker-side state of `_process_job`: the stored job, the trace of
states observable between lock-protected updates, and the worker's
local `errors` and `generated` lists. -/
structure WorkerState where
  job : ConversionJob
  trace : List ConversionJob
  errors : List String
  generated : List (String × String)
deriving DecidableEq

/-- Embeds one `_update_job` call: the merged record is stored and
becomes observable to concurrent `/status` readers. -/
def pushJob (s : WorkerState) (j : ConversionJob) : WorkerState :=
  { s with job := j, trace := s.trace ++ [j] }

/-- Delivery of one progress event: `JobProgressLogger.callback` either
publishes a percentage via `_update_job(current_progress=percent)` or
drops the event with no update. -/
def applyEvent (s : WorkerState) (b : Bar) : WorkerState :=
  match callbackPercent b with
  | some p => pushJob s { s.job with current_progress := p }
  | none => s

/-- Sequential delivery of the progress events of one file. -/
def applyEvents : WorkerState → List Bar → WorkerState
  | s, [] => s
  | s, b :: rest => applyEvents (applyEvent s b) rest

/-- Embeds one iteration of the `for index, video_path in
enumerate(supported_files, start=1)` loop of `_process_job` (lines
207-248), `idx` being the 1-based `index`.  Returns the new state and
whether the loop `return`ed (fatal `ModuleNotFoundError`).  The Python
`finally` block runs in every branch, including after the fatal
`return` statement. -/
def runFile (out : String) (idx : ℕ) (fj : FileJob) (s : WorkerState) :
    WorkerState × Bool :=
  let audioRel := withSuffixMp3 fj.relative
  let audioPath := out ++ "/" ++ audioRel
  let s1 := pushJob s { s.job with
    current_file := some fj.relative,
    processed_files := (idx : ℤ) - 1,
    current_progress := 0 }
  let s2 := applyEvents s1 fj.events
  match fj.outcome with
  | .fatal msg =>
    let errs := s2.errors ++ [msg]
    let s3 := { s2 with errors := errs }
    let s4 := pushJob s3 { s3.job with
      status := .failed, message := some msg, errors := errs,
      processed_files := (idx : ℤ), current_file := none, current_progress := 0 }
    let s5 := pushJob s4 { s4.job with
      errors := errs, processed_files := (idx : ℤ), current_progress := 0 }
    (s5, true)
  | .recoverable msg =>
    let errs := s2.errors ++ [fj.relative ++ ": " ++ msg]
    let s3 := { s2 with errors := errs }
    let s4 := pushJob s3 { s3.job with
      errors := errs, processed_files := (idx : ℤ), current_progress := 0 }
    (s4, false)
  | .success =>
    let gen := s2.generated ++ [(audioPath, audioRel)]
    let s3 := { s2 with generated := gen }
    let s4 := pushJob s3 { s3.job with converted := (gen.length : ℤ) }
    let s5 := pushJob s4 { s4.job with
      errors := s4.errors, processed_files := (idx : ℤ), current_progress := 100 }
    (s5, false)

/-- The per-file loop of `_process_job`; aborts on the first fatal
outcome. -/
def runFiles (out : String) : ℕ → List FileJob → WorkerState → WorkerState × Bool
  | _, [], s => (s, false)
  | idx, fj :: rest, s =>
    match runFile out idx fj s with
    | (s', true) => (s', true)
    | (s', false) => runFiles out (idx + 1) rest s'

/-- Names of the entries written into `converted_audio.zip` (lines
268-273): one entry per generated file under its archive-relative name,
plus `conversion_report.txt` when any errors were recorded. -/
def zipEntriesOf (generated : List (String × String)) (errors : List String) :
    List String :=
  generated.map Prod.snd ++ (if errors = [] then [] else ["conversion_report.txt"])

/-- Worker state right after the initial `running` update of
`_process_job` (lines 199-205): fresh local `errors`/`generated` lists
and the first published state. -/
def startState (initJob : ConversionJob) : WorkerState :=
  pushJob ⟨initJob, [], [], []⟩ { initJob with
    status := .running, message := some "Converting videos...",
    errors := [], current_progress := 0 }

/-- Post-loop part of `_process_job` (lines 250-287) when the loop was
not aborted: either the all-failed `failed` update, or ZIP packaging
and the terminal `completed` update.  The second component is the list
of archive entry names when an archive was written. -/
def finishJob (out : String) (s2 : WorkerState) :
    WorkerState × Option (List String) :=
  if s2.generated = [] then
    let msg := if s2.errors = [] then "No audio files were generated."
      else "Conversion failed for all uploaded videos."
    (pushJob s2 { s2.job with
      status := .failed, message := some msg,
      current_file := none, current_progress := 0 }, none)
  else
    let msg := if s2.errors = [] then "Conversion completed!"
      else "Conversion completed with some errors."
    (pushJob s2 { s2.job with
      status := .completed, message := some msg,
      download_path := some (out ++ "/converted_audio.zip"),
      generated_files := s2.generated.map Prod.snd,
      current_file := none, current_progress := 100 },
     some (zipEntriesOf s2.generated s2.errors))

/-- Embeds `_process_job` (lines 190-287) for a job that stays in the
store: the initial `running` update, the per-file loop, and the
post-loop packaging/terminal update. -/
def processJob (out : String) (files : List FileJob) (initJob : ConversionJob) :
    WorkerState × Option (List String) :=
  match runFiles out 1 files (startState initJob) with
  | (s2, true) => (s2, none)
  | (s2, false) => finishJob out s2

/-- Whether the conversion outcome is the fatal
`ModuleNotFoundError`. -/
def FileOutcome.isFatal : FileOutcome → Bool
  | .fatal _ => true
  | .success => false
  | .recoverable _ => false

/-- Whether the conversion outcome is a success. -/
def FileOutcome.isSuccess : FileOutcome → Bool
  | .success => true
  | .fatal _ => false
  | .recoverable _ => false

/-- The output mappings `(temp output path, archive-relative path)`
recorded for the successfully converted files, in queue order. -/
def successPairs (out : String) (files : List FileJob) : List (String × String) :=
  (files.filter (fun fj => fj.outcome.isSuccess)).map
    (fun fj => (out ++ "/" ++ withSuffixMp3 fj.relative, withSuffixMp3 fj.relative))

/-- Counter invariant of observable job states (amended form of the
spec's data-model invariant): all counters non-negative,
`processed_files ≤ total_files`, and `converted ≤ processed_files + 1`. -/
def JobInv (j : ConversionJob) : Prop :=
  0 ≤ j.converted ∧ 0 ≤ j.processed_files ∧ 0 ≤ j.total_files ∧
  j.processed_files ≤ j.total_files ∧ j.converted ≤ j.processed_files + 1

instance (j : ConversionJob) : Decidable (JobInv j) := by
  unfold JobInv
  infer_instance

/-! ### Upload filename sanitizing (`_sanitize_relative_path`) -/

/-- Whether a POSIX path string is absolute. -/
def isAbs (s : String) : Bool :=
  match s.data with
  | [] => false
  | c :: _ => c = '/'

/-- Non-root components of `PurePosixPath(filename)`: empty and `"."`
components are dropped by the pathlib parser, `".."` is kept. -/
def pyTail (filename : String) : List String :=
  (splitSlash filename).filter (fun p => !(p == "" || p == "."))

/-- Embeds `PurePosixPath(filename).parts`: a leading `"/"` root part
followed by the non-root components. -/
def pyParts (filename : String) : List String :=
  (if isAbs filename then ["/"] else []) ++ pyTail filename

/-- Embeds `PurePosixPath(filename).name`: the final non-root
component, or `""`. -/
def pyName (filename : String) : String := (pyTail filename).getLastD ""

/-- Embeds `_sanitize_relative_path` (lines 57-62), returning the parts
of the resulting `Path`.  `Path(*safe_parts)` re-joins components that
contain no separator, so its parts are `safe_parts` itself. -/
def sanitize_relative_path (filename : String) : List String :=
  let safe := (pyParts filename).filter (fun p => !(p == "" || p == "." || p == ".."))
  if safe = [] then
    pyParts (if pyName filename = "" then "uploaded_file" else pyName filename)
  else safe

/-! ### The download endpoint -/

/-- The in-process `jobs` dict, as an association list. -/
abbrev JobMap := List (String × ConversionJob)

/-- Embeds `jobs.get(job_id)`. -/
def lookupJob : JobMap → String → Option ConversionJob
  | [], _ => none
  | (k, j) :: rest, i => if k = i then some j else lookupJob rest i

/-- Embeds `jobs.pop(job_id, None)` (the record removal). -/
def removeJob (m : JobMap) (i : String) : JobMap :=
  m.filter (fun kv => !(kv.1 == i))

/-- Result of a `/download/<job_id>` request. -/
inductive DownloadResult where
  | notFound
  | sendFile (path : String)
deriving DecidableEq

/-- Embeds the `download` endpoint (lines 314-336): a 404 unless the
job exists, is `completed` and has a download path; otherwise the
archive is sent and the `after_this_request` cleanup pops the job and
removes its `temp_dir` (third component). -/
def download (m : JobMap) (job_id : String) :
    DownloadResult × JobMap × Option String :=
  match lookupJob m job_id with
  | none => (.notFound, m, none)
  | some job =>
    if job.status = .completed then
      match job.download_path with
      | some p => (.sendFile p, removeJob m job_id, job.temp_dir)
      | none => (.notFound, m, none)
    else (.notFound, m, none)

/-! ### The folder batch converter (`mp4_2_mp3.py`) -/

/-- The message of the `ModuleNotFoundError` raised by
`_require_moviepy` (lines 18-22). -/
def moviepyMissingMessage : String :=
  "moviepy is required to convert videos. Install it with `pip install moviepy`."

/-- One entry of `folder.iterdir()`. -/
structure DirEntry where
  name : String
  is_file : Bool
deriving DecidableEq

/-- Embeds the `VIDEO_EXTENSIONS` tuple. -/
def VIDEO_EXTENSIONS : List String :=
  [".mp4", ".mkv", ".avi", ".mov", ".flv", ".wmv", ".m4v"]

/-- Lower-case a string (`str.lower()` on ASCII names). -/
def toLowerStr (s : String) : String := String.mk (s.data.map Char.toLower)

/-- Embeds `_iter_video_files` (lines 52-56): regular files whose
lower-cased suffix is a recognised video extension, in iteration
order. -/
def iterVideoFiles (entries : List DirEntry) : List DirEntry :=
  entries.filter (fun e =>
    e.is_file && (VIDEO_EXTENSIONS.map toLowerStr).contains (toLowerStr (pySuffix e.name)))

/-- How `video_to_audio_file` ends for one source file in the folder
loop. -/
inductive FolderOutcome where
  | ok
  | fail (msg : String)
deriving DecidableEq

/-- Whether a per-file outcome is a success. -/
def FolderOutcome.isOk : FolderOutcome → Bool
  | .ok => true
  | .fail _ => false

/-- Embeds `video_to_audio_folder` (lines 59-94): `_require_moviepy`
first (a `ModuleNotFoundError` before any file is attempted), then one
conversion attempt per recognised video file, appending the output path
on success and swallowing any per-file exception. -/
def video_to_audio_folder (moviepyAvailable : Bool) (output_folder : String)
    (audio_format : String) (entries : List DirEntry)
    (convert : String → FolderOutcome) : Except String (List String) :=
  if moviepyAvailable then
    Except.ok ((iterVideoFiles entries).foldl (fun acc e =>
      match convert e.name with
      | .ok => acc ++ [output_folder ++ "/" ++ pyStem e.name ++ "." ++ audio_format]
      | .fail _ => acc) [])
  else Except.error moviepyMissingMessage

/-! ### Helper lemmas -/

/-- Rounding an integer is the identity. -/
theorem pyRound_intCast (n : ℤ) : pyRound ((n : ℚ)) = n := by
  simp [pyRound, Int.floor_intCast]

/-- Evaluation helper for `percentOf` at rationals with an integral
hundredfold. -/
theorem percentOf_eq_of_mul (f : ℚ) (n : ℤ) (h : f * 100 = (n : ℚ)) :
    percentOf f = clamp100 n := by
  rw [percentOf, h, pyRound_intCast]

/-- A directly reported fraction is the derived fraction. -/
theorem callbackFraction_of_some (b : Bar) (f : ℚ) (hb : b.fraction = some f) :
    callbackFraction b = some f := by
  unfold callbackFraction
  rw [hb]

/-- With no direct fraction, a completed count and a truthy total, the
derived fraction is `completed / total`. -/
theorem callbackFraction_of_ratio (b : Bar) (c : ℚ) (hb : b.fraction = none)
    (hc : barCompleted b = some c) (ht : barTotal b ≠ 0) :
    callbackFraction b = some (c / barTotal b) := by
  unfold callbackFraction
  rw [hb, hc]
  exact if_neg ht

/-- With no direct fraction and no derivable ratio, the event is
dropped. -/
theorem callbackFraction_of_none (b : Bar) (hb : b.fraction = none)
    (h : barCompleted b = none ∨ barTotal b = 0) :
    callbackFraction b = none := by
  unfold callbackFraction
  rw [hb]
  rcases h with h | h
  · rw [h]
  · cases hc : barCompleted b <;> simp [h, hc]

/-- Evaluation helper for `callbackPercent` on a direct fraction. -/
theorem callbackPercent_fraction (b : Bar) (f : ℚ) (n p : ℤ)
    (hb : b.fraction = some f) (h : f * 100 = (n : ℚ)) (hp : clamp100 n = p) :
    callbackPercent b = some p := by
  rw [callbackPercent, callbackFraction_of_some b f hb, Option.map_some',
    percentOf_eq_of_mul f n h, hp]

/-- Evaluation helper for `callbackPercent` on a completed/total
pair. -/
theorem callbackPercent_ratio (b : Bar) (c t : ℚ) (n p : ℤ)
    (hb : b.fraction = none) (hc : barCompleted b = some c) (htv : barTotal b = t)
    (ht : t ≠ 0) (h : c / t * 100 = (n : ℚ)) (hp : clamp100 n = p) :
    callbackPercent b = some p := by
  rw [callbackPercent,
    callbackFraction_of_ratio b c hb hc (by rw [htv]; exact ht),
    Option.map_some', htv, percentOf_eq_of_mul (c / t) n h, hp]

/-- Pushing an update stores the new record. -/
@[simp] theorem pushJob_job (s : WorkerState) (j : ConversionJob) :
    (pushJob s j).job = j := rfl

/-- Pushing an update leaves the worker-local error list alone. -/
@[simp] theorem pushJob_errors (s : WorkerState) (j : ConversionJob) :
    (pushJob s j).errors = s.errors := rfl

/-- Pushing an update leaves the worker-local generated list alone. -/
@[simp] theorem pushJob_generated (s : WorkerState) (j : ConversionJob) :
    (pushJob s j).generated = s.generated := rfl

/-- Pushing an update appends the new record to the observable trace. -/
@[simp] theorem pushJob_trace (s : WorkerState) (j : ConversionJob) :
    (pushJob s j).trace = s.trace ++ [j] := rfl

/-- A state in the trace after an update was there before or is the
update. -/
theorem mem_trace_pushJob {s : WorkerState} {j k : ConversionJob}
    (h : j ∈ (pushJob s k).trace) : j ∈ s.trace ∨ j = k := by
  simpa using h

/-- Delivering one event does not touch the worker-local lists. -/
@[simp] theorem applyEvent_errors (s : WorkerState) (b : Bar) :
    (applyEvent s b).errors = s.errors := by
  unfold applyEvent
  cases callbackPercent b <;> simp

/-- Delivering one event does not touch the worker-local lists. -/
@[simp] theorem applyEvent_generated (s : WorkerState) (b : Bar) :
    (applyEvent s b).generated = s.generated := by
  unfold applyEvent
  cases callbackPercent b <;> simp

/-- Delivering one event can only change `current_progress` in the
stored job: every other field is preserved. -/
theorem applyEvent_job_eq (s : WorkerState) (b : Bar) :
    (applyEvent s b).job = { s.job with
      current_progress := (applyEvent s b).job.current_progress } := by
  unfold applyEvent
  cases callbackPercent b <;> rfl

/-- Delivering events does not touch the worker-local error list. -/
@[simp] theorem applyEvents_errors :
    ∀ (evs : List Bar) (s : WorkerState), (applyEvents s evs).errors = s.errors := by
  intro evs
  induction evs with
  | nil => intro s; rfl
  | cons b rest ih =>
    intro s
    exact (ih (applyEvent s b)).trans (applyEvent_errors s b)

/-- Delivering events does not touch the worker-local generated list. -/
@[simp] theorem applyEvents_generated :
    ∀ (evs : List Bar) (s : WorkerState), (applyEvents s evs).generated = s.generated := by
  intro evs
  induction evs with
  | nil => intro s; rfl
  | cons b rest ih =>
    intro s
    exact (ih (applyEvent s b)).trans (applyEvent_generated s b)

/-- Delivering events can only change `current_progress` in the stored
job. -/
theorem applyEvents_job_eq :
    ∀ (evs : List Bar) (s : WorkerState),
      (applyEvents s evs).job = { s.job with
        current_progress := (applyEvents s evs).job.current_progress } := by
  intro evs
  induction evs with
  | nil => intro s; rfl
  | cons b rest ih =>
    intro s
    show (applyEvents (applyEvent s b) rest).job = _
    rw [ih (applyEvent s b), applyEvent_job_eq s b]
    rfl

@[simp] theorem applyEvents_job_status (evs : List Bar) (s : WorkerState) :
    (applyEvents s evs).job.status = s.job.status := by
  rw [applyEvents_job_eq]

@[simp] theorem applyEvents_job_total (evs : List Bar) (s : WorkerState) :
    (applyEvents s evs).job.total_files = s.job.total_files := by
  rw [applyEvents_job_eq]

@[simp] theorem applyEvents_job_converted (evs : List Bar) (s : WorkerState) :
    (applyEvents s evs).job.converted = s.job.converted := by
  rw [applyEvents_job_eq]

@[simp] theorem applyEvents_job_processed (evs : List Bar) (s : WorkerState) :
    (applyEvents s evs).job.processed_files = s.job.processed_files := by
  rw [applyEvents_job_eq]

@[simp] theorem applyEvents_job_errors (evs : List Bar) (s : WorkerState) :
    (applyEvents s evs).job.errors = s.job.errors := by
  rw [applyEvents_job_eq]

@[simp] theorem applyEvents_job_message (evs : List Bar) (s : WorkerState) :
    (applyEvents s evs).job.message = s.job.message := by
  rw [applyEvents_job_eq]

@[simp] theorem applyEvents_job_download (evs : List Bar) (s : WorkerState) :
    (applyEvents s evs).job.download_path = s.job.download_path := by
  rw [applyEvents_job_eq]

@[simp] theorem applyEvents_job_temp (evs : List Bar) (s : WorkerState) :
    (applyEvents s evs).job.temp_dir = s.job.temp_dir := by
  rw [applyEvents_job_eq]

@[simp] theorem applyEvents_job_generated_files (evs : List Bar) (s : WorkerState) :
    (applyEvents s evs).job.generated_files = s.job.generated_files := by
  rw [applyEvents_job_eq]

@[simp] theorem applyEvents_job_unsupported (evs : List Bar) (s : WorkerState) :
    (applyEvents s evs).job.unsupported_files = s.job.unsupported_files := by
  rw [applyEvents_job_eq]

@[simp] theorem applyEvents_job_current_file (evs : List Bar) (s : WorkerState) :
    (applyEvents s evs).job.current_file = s.job.current_file := by
  rw [applyEvents_job_eq]

@[simp] theorem applyEvents_job_id (evs : List Bar) (s : WorkerState) :
    (applyEvents s evs).job.id = s.job.id := by
  rw [applyEvents_job_eq]

/-- Worker state after a file whose conversion raises
`ModuleNotFoundError`: the message is recorded, the job is published
`failed` with `processed_files = idx`, and the loop aborts. -/
theorem runFile_fatal (out : String) (idx : ℕ) (fj : FileJob) (s : WorkerState)
    (msg : String) (h : fj.outcome = .fatal msg) :
    (runFile out idx fj s).2 = true ∧
    (runFile out idx fj s).1.errors = s.errors ++ [msg] ∧
    (runFile out idx fj s).1.generated = s.generated ∧
    (runFile out idx fj s).1.job.status = .failed ∧
    (runFile out idx fj s).1.job.message = some msg ∧
    (runFile out idx fj s).1.job.errors = s.errors ++ [msg] ∧
    (runFile out idx fj s).1.job.processed_files = (idx : ℤ) ∧
    (runFile out idx fj s).1.job.current_file = none ∧
    (runFile out idx fj s).1.job.current_progress = 0 ∧
    (runFile out idx fj s).1.job.converted = s.job.converted ∧
    (runFile out idx fj s).1.job.total_files = s.job.total_files := by
  simp [runFile, h]

/-- Worker state after a file whose conversion raises a recoverable
exception: `"<relative>: <detail>"` is appended to the error list,
`converted` and `generated` are unchanged, `current_progress` is reset
to `0`, `processed_files = idx` and the updated error list are
published, and the loop continues. -/
theorem runFile_recoverable (out : String) (idx : ℕ) (fj : FileJob) (s : WorkerState)
    (msg : String) (h : fj.outcome = .recoverable msg) :
    (runFile out idx fj s).2 = false ∧
    (runFile out idx fj s).1.errors = s.errors ++ [fj.relative ++ ": " ++ msg] ∧
    (runFile out idx fj s).1.generated = s.generated ∧
    (runFile out idx fj s).1.job.status = s.job.status ∧
    (runFile out idx fj s).1.job.message = s.job.message ∧
    (runFile out idx fj s).1.job.errors = s.errors ++ [fj.relative ++ ": " ++ msg] ∧
    (runFile out idx fj s).1.job.processed_files = (idx : ℤ) ∧
    (runFile out idx fj s).1.job.current_file = some fj.relative ∧
    (runFile out idx fj s).1.job.current_progress = 0 ∧
    (runFile out idx fj s).1.job.converted = s.job.converted ∧
    (runFile out idx fj s).1.job.total_files = s.job.total_files ∧
    (runFile out idx fj s).1.job.generated_files = s.job.generated_files ∧
    (runFile out idx fj s).1.job.download_path = s.job.download_path := by
  simp [runFile, h]

/-- Worker state after a successfully converted file: the output
mapping is appended to `generated`, `converted` is republished as the
new generated count, `current_progress = 100`, and the unchanged error
list and `processed_files = idx` are published. -/
theorem runFile_success (out : String) (idx : ℕ) (fj : FileJob) (s : WorkerState)
    (h : fj.outcome = .success) :
    (runFile out idx fj s).2 = false ∧
    (runFile out idx fj s).1.errors = s.errors ∧
    (runFile out idx fj s).1.generated =
      s.generated ++ [(out ++ "/" ++ withSuffixMp3 fj.relative, withSuffixMp3 fj.relative)] ∧
    (runFile out idx fj s).1.job.status = s.job.status ∧
    (runFile out idx fj s).1.job.message = s.job.message ∧
    (runFile out idx fj s).1.job.errors = s.errors ∧
    (runFile out idx fj s).1.job.processed_files = (idx : ℤ) ∧
    (runFile out idx fj s).1.job.current_file = some fj.relative ∧
    (runFile out idx fj s).1.job.current_progress = 100 ∧
    (runFile out idx fj s).1.job.converted = (s.generated.length : ℤ) + 1 ∧
    (runFile out idx fj s).1.job.total_files = s.job.total_files ∧
    (runFile out idx fj s).1.job.generated_files = s.job.generated_files ∧
    (runFile out idx fj s).1.job.download_path = s.job.download_path := by
  simp [runFile, h]

/-- The loop aborts exactly on a fatal outcome. -/
theorem runFile_snd (out : String) (idx : ℕ) (fj : FileJob) (s : WorkerState) :
    (runFile out idx fj s).2 = fj.outcome.isFatal := by
  cases hout : fj.outcome with
  | success => simp [(runFile_success out idx fj s hout).1, FileOutcome.isFatal]
  | fatal m => simp [(runFile_fatal out idx fj s m hout).1, FileOutcome.isFatal]
  | recoverable m =>
    simp [(runFile_recoverable out idx fj s m hout).1, FileOutcome.isFatal]

/-- Loop step when the head file does not abort. -/
theorem runFiles_cons_not_aborted (out : String) (idx : ℕ) (fj : FileJob)
    (rest : List FileJob) (s : WorkerState) (h : (runFile out idx fj s).2 = false) :
    runFiles out idx (fj :: rest) s = runFiles out (idx + 1) rest (runFile out idx fj s).1 := by
  rcases hrf : runFile out idx fj s with ⟨s', b⟩
  rw [hrf] at h
  simp only at h
  subst h
  simp [runFiles, hrf]

/-- Loop step when the head file aborts the batch. -/
theorem runFiles_cons_aborted (out : String) (idx : ℕ) (fj : FileJob)
    (rest : List FileJob) (s : WorkerState) (h : (runFile out idx fj s).2 = true) :
    runFiles out idx (fj :: rest) s = runFile out idx fj s := by
  rcases hrf : runFile out idx fj s with ⟨s', b⟩
  rw [hrf] at h
  simp only at h
  subst h
  simp [runFiles, hrf]

/-- Summary of a loop run in which no file has a fatal outcome: the
loop is not aborted, every file is processed, the output mappings of
the successful files are appended in order, the published `converted`
equals the generated count, and the published error list mirrors the
worker's. -/
theorem runFiles_no_fatal (out : String) :
    ∀ (files : List FileJob) (idx : ℕ) (s : WorkerState),
      (∀ fj ∈ files, fj.outcome.isFatal = false) →
      s.job.processed_files = (idx : ℤ) - 1 →
      s.job.converted = (s.generated.length : ℤ) →
      s.job.errors = s.errors →
      (runFiles out idx files s).2 = false ∧
      (runFiles out idx files s).1.job.processed_files = (idx : ℤ) - 1 + files.length ∧
      (runFiles out idx files s).1.generated = s.generated ++ successPairs out files ∧
      (runFiles out idx files s).1.job.converted =
        ((runFiles out idx files s).1.generated.length : ℤ) ∧
      (runFiles out idx files s).1.job.errors = (runFiles out idx files s).1.errors ∧
      (runFiles out idx files s).1.job.total_files = s.job.total_files ∧
      (runFiles out idx files s).1.job.status = s.job.status := by
  intro files
  induction files with
  | nil =>
    intro idx s hF hp hc he
    refine ⟨rfl, ?_, ?_, ?_, ?_, rfl, rfl⟩ <;> simp [runFiles, successPairs, hp, hc, he]
  | cons fj rest ih =>
    intro idx s hF hp hc he
    have hfj : fj.outcome.isFatal = false := hF fj (by simp)
    have hrest : ∀ g ∈ rest, g.outcome.isFatal = false := fun g hg => hF g (by simp [hg])
    cases hout : fj.outcome with
    | fatal m => rw [hout] at hfj; simp [FileOutcome.isFatal] at hfj
    | success =>
      obtain ⟨h2, herr, hgen, hst, hmsg, hjerr, hproc, hcf, hcp, hconv, htot, hgf, hdp⟩ :=
        runFile_success out idx fj s hout
      rw [runFiles_cons_not_aborted out idx fj rest s h2]
      obtain ⟨i1, i2, i3, i4, i5, i6, i7⟩ :=
        ih (idx + 1) (runFile out idx fj s).1 hrest
          (by rw [hproc]; push_cast; ring)
          (by rw [hconv, hgen]; simp)
          (by rw [hjerr, herr])
      refine ⟨i1, ?_, ?_, i4, i5, ?_, ?_⟩
      · rw [i2]; push_cast [List.length_cons]; ring
      · rw [i3, hgen]
        simp only [successPairs, List.filter_cons, hout, FileOutcome.isSuccess]
        simp [List.append_assoc]
      · rw [i6, htot]
      · rw [i7, hst]
    | recoverable m =>
      obtain ⟨h2, herr, hgen, hst, hmsg, hjerr, hproc, hcf, hcp, hconv, htot, hgf, hdp⟩ :=
        runFile_recoverable out idx fj s m hout
      rw [runFiles_cons_not_aborted out idx fj rest s h2]
      obtain ⟨i1, i2, i3, i4, i5, i6, i7⟩ :=
        ih (idx + 1) (runFile out idx fj s).1 hrest
          (by rw [hproc]; push_cast; ring)
          (by rw [hconv, hgen, hc])
          (by rw [hjerr, herr])
      refine ⟨i1, ?_, ?_, i4, i5, ?_, ?_⟩
      · rw [i2]; push_cast [List.length_cons]; ring
      · rw [i3, hgen]
        simp only [successPairs, List.filter_cons, hout, FileOutcome.isSuccess]
        simp
      · rw [i6, htot]
      · rw [i7, hst]

/-- A loop that reaches a first fatal file computes exactly the run up
to and including that file; the remaining files are never attempted. -/
theorem runFiles_fatal_at (out : String) :
    ∀ (pre : List FileJob) (idx : ℕ) (s : WorkerState) (fj : FileJob)
      (post : List FileJob) (msg : String),
      (∀ g ∈ pre, g.outcome.isFatal = false) → fj.outcome = .fatal msg →
      runFiles out idx (pre ++ fj :: post) s =
        runFile out (idx + pre.length) fj (runFiles out idx pre s).1 := by
  intro pre
  induction pre with
  | nil =>
    intro idx s fj post msg hF hfj
    have h2 : (runFile out idx fj s).2 = true := by
      rw [runFile_snd, hfj]
      rfl
    rw [List.nil_append, runFiles_cons_aborted out idx fj post s h2]
    simp [runFiles]
  | cons g pre ih =>
    intro idx s fj post msg hF hfj
    have hg : (runFile out idx g s).2 = false := by
      rw [runFile_snd, hF g (by simp)]
    rw [List.cons_append, runFiles_cons_not_aborted out idx g (pre ++ fj :: post) s hg,
      ih (idx + 1) (runFile out idx g s).1 fj post msg
        (fun x hx => hF x (by simp [hx])) hfj,
      runFiles_cons_not_aborted out idx g pre s hg]
    congr 1
    simp [List.length_cons]
    omega

/-- `_process_job` after an aborted loop: no packaging happens. -/
theorem processJob_aborted (out : String) (files : List FileJob) (init : ConversionJob)
    (h : (runFiles out 1 files (startState init)).2 = true) :
    processJob out files init = ((runFiles out 1 files (startState init)).1, none) := by
  rcases hr : runFiles out 1 files (startState init) with ⟨s2, b⟩
  rw [hr] at h
  simp only at h
  subst h
  simp [processJob, hr]

/-- `_process_job` after a completed loop: the post-loop branch runs. -/
theorem processJob_not_aborted (out : String) (files : List FileJob) (init : ConversionJob)
    (h : (runFiles out 1 files (startState init)).2 = false) :
    processJob out files init = finishJob out (runFiles out 1 files (startState init)).1 := by
  rcases hr : runFiles out 1 files (startState init) with ⟨s2, b⟩
  rw [hr] at h
  simp only at h
  subst h
  simp [processJob, hr]

/-- The post-loop `failed` update when nothing was generated. -/
theorem finishJob_empty (out : String) (s2 : WorkerState) (h : s2.generated = []) :
    (finishJob out s2).2 = none ∧
    (finishJob out s2).1.job.status = .failed ∧
    (finishJob out s2).1.job.converted = s2.job.converted ∧
    (finishJob out s2).1.job.processed_files = s2.job.processed_files ∧
    (finishJob out s2).1.job.total_files = s2.job.total_files ∧
    (finishJob out s2).1.job.current_progress = 0 ∧
    (finishJob out s2).1.job.current_file = none ∧
    (finishJob out s2).1.job.errors = s2.job.errors ∧
    (finishJob out s2).1.trace = s2.trace ++ [(finishJob out s2).1.job] := by
  simp [finishJob, h]

/-- The ZIP packaging and terminal `completed` update when at least one
file was generated. -/
theorem finishJob_nonempty (out : String) (s2 : WorkerState) (h : ¬s2.generated = []) :
    (finishJob out s2).2 = some (zipEntriesOf s2.generated s2.errors) ∧
    (finishJob out s2).1.job.status = .completed ∧
    (finishJob out s2).1.job.generated_files = s2.generated.map Prod.snd ∧
    (finishJob out s2).1.job.download_path = some (out ++ "/converted_audio.zip") ∧
    (finishJob out s2).1.job.converted = s2.job.converted ∧
    (finishJob out s2).1.job.processed_files = s2.job.processed_files ∧
    (finishJob out s2).1.job.total_files = s2.job.total_files ∧
    (finishJob out s2).1.job.errors = s2.job.errors ∧
    (finishJob out s2).1.job.current_progress = 100 ∧
    (finishJob out s2).1.job.current_file = none ∧
    (finishJob out s2).1.trace = s2.trace ++ [(finishJob out s2).1.job] := by
  simp [finishJob, h]

/-- A state observed during event delivery was already observable or
has the same counters as the stored job. -/
theorem applyEvent_trace_mem (s : WorkerState) (b : Bar) :
    ∀ j ∈ (applyEvent s b).trace,
      j ∈ s.trace ∨
        (j.converted = s.job.converted ∧ j.processed_files = s.job.processed_files ∧
          j.total_files = s.job.total_files) := by
  intro j hj
  unfold applyEvent at hj
  cases hcb : callbackPercent b with
  | none =>
    rw [hcb] at hj
    exact Or.inl hj
  | some p =>
    rw [hcb] at hj
    rcases mem_trace_pushJob hj with h | rfl
    · exact Or.inl h
    · exact Or.inr ⟨rfl, rfl, rfl⟩

/-- A state observed during the delivery of a list of events was
already observable or has the same counters as the stored job. -/
theorem applyEvents_trace_mem :
    ∀ (evs : List Bar) (s : WorkerState) (j : ConversionJob),
      j ∈ (applyEvents s evs).trace →
      j ∈ s.trace ∨
        (j.converted = s.job.converted ∧ j.processed_files = s.job.processed_files ∧
          j.total_files = s.job.total_files) := by
  intro evs
  induction evs with
  | nil => intro s j hj; exact Or.inl hj
  | cons b rest ih =>
    intro s j hj
    rcases ih (applyEvent s b) j hj with h | h
    · exact applyEvent_trace_mem s b j h
    · right
      refine ⟨h.1.trans ?_, h.2.1.trans ?_, h.2.2.trans ?_⟩ <;> rw [applyEvent_job_eq]

/-- Every state published while processing one file satisfies the
counter invariant, provided the worker enters the file with a
consistent state. -/
theorem runFile_trace_inv (out : String) (idx : ℕ) (fj : FileJob) (s : WorkerState)
    (hc : s.job.converted = (s.generated.length : ℤ))
    (hg : (s.generated.length : ℤ) ≤ (idx : ℤ) - 1)
    (hi : 1 ≤ idx) (hn : (idx : ℤ) ≤ s.job.total_files)
    (htr : ∀ j ∈ s.trace, JobInv j) :
    ∀ j ∈ (runFile out idx fj s).1.trace, JobInv j := by
  intro j hj
  cases hout : fj.outcome with
  | fatal m =>
    simp only [runFile, hout] at hj
    rcases mem_trace_pushJob hj with hj | rfl
    rotate_left
    · simp only [JobInv]
      simp
      omega
    rcases mem_trace_pushJob hj with hj | rfl
    rotate_left
    · simp only [JobInv]
      simp
      omega
    rcases applyEvents_trace_mem fj.events (pushJob s _) j hj with hj | hcnt
    · rcases mem_trace_pushJob hj with hj | rfl
      · exact htr j hj
      · simp only [JobInv]
        simp
        omega
    · simp only [pushJob_job] at hcnt
      obtain ⟨e1, e2, e3⟩ := hcnt
      simp only [JobInv]
      omega
  | recoverable m =>
    simp only [runFile, hout] at hj
    rcases mem_trace_pushJob hj with hj | rfl
    rotate_left
    · simp only [JobInv]
      simp
      omega
    rcases applyEvents_trace_mem fj.events (pushJob s _) j hj with hj | hcnt
    · rcases mem_trace_pushJob hj with hj | rfl
      · exact htr j hj
      · simp only [JobInv]
        simp
        omega
    · simp only [pushJob_job] at hcnt
      obtain ⟨e1, e2, e3⟩ := hcnt
      simp only [JobInv]
      omega
  | success =>
    simp only [runFile, hout] at hj
    rcases mem_trace_pushJob hj with hj | rfl
    rotate_left
    · simp only [JobInv]
      simp
      omega
    rcases mem_trace_pushJob hj with hj | rfl
    rotate_left
    · simp only [JobInv]
      simp
      omega
    rcases applyEvents_trace_mem fj.events (pushJob s _) j hj with hj | hcnt
    · rcases mem_trace_pushJob hj with hj | rfl
      · exact htr j hj
      · simp only [JobInv]
        simp
        omega
    · simp only [pushJob_job] at hcnt
      obtain ⟨e1, e2, e3⟩ := hcnt
      simp only [JobInv]
      omega

/-- Every state published during the per-file loop satisfies the
counter invariant, and so does the stored job when the loop ends. -/
theorem runFiles_trace_inv (out : String) :
    ∀ (files : List FileJob) (idx : ℕ) (s : WorkerState),
      s.job.processed_files = (idx : ℤ) - 1 →
      s.job.converted = (s.generated.length : ℤ) →
      (s.generated.length : ℤ) ≤ (idx : ℤ) - 1 →
      1 ≤ idx →
      (idx : ℤ) + files.length - 1 ≤ s.job.total_files →
      (∀ j ∈ s.trace, JobInv j) →
      (∀ j ∈ (runFiles out idx files s).1.trace, JobInv j) ∧
        JobInv (runFiles out idx files s).1.job := by
  intro files
  induction files with
  | nil =>
    intro idx s hp hc hg hi hn htr
    simp only [List.length_nil] at hn
    refine ⟨htr, ?_⟩
    simp only [runFiles, JobInv]
    omega
  | cons fj rest ih =>
    intro idx s hp hc hg hi hn htr
    simp only [List.length_cons] at hn
    have hn' : (idx : ℤ) ≤ s.job.total_files := by push_cast at hn ⊢; omega
    have htr' := runFile_trace_inv out idx fj s hc hg hi hn' htr
    cases hout : fj.outcome with
    | fatal m =>
      have habort : (runFile out idx fj s).2 = true := by
        rw [runFile_snd, hout]
        rfl
      rw [runFiles_cons_aborted out idx fj rest s habort]
      obtain ⟨_, _, hgen, _, _, _, hproc, _, _, hconv, htot⟩ :=
        runFile_fatal out idx fj s m hout
      refine ⟨htr', ?_⟩
      simp only [JobInv]
      rw [hproc, hconv, htot]
      omega
    | success =>
      obtain ⟨h2, herr, hgen, hst, hmsg, hjerr, hproc, hcf, hcp, hconv, htot, hgf, hdp⟩ :=
        runFile_success out idx fj s hout
      rw [runFiles_cons_not_aborted out idx fj rest s h2]
      exact ih (idx + 1) (runFile out idx fj s).1
        (by rw [hproc]; push_cast; ring)
        (by rw [hconv, hgen]; simp)
        (by rw [hgen]; simp; omega)
        (by omega)
        (by rw [htot]; push_cast; omega)
        htr'
    | recoverable m =>
      obtain ⟨h2, herr, hgen, hst, hmsg, hjerr, hproc, hcf, hcp, hconv, htot, hgf, hdp⟩ :=
        runFile_recoverable out idx fj s m hout
      rw [runFiles_cons_not_aborted out idx fj rest s h2]
      exact ih (idx + 1) (runFile out idx fj s).1
        (by rw [hproc]; push_cast; ring)
        (by rw [hconv, hgen, hc])
        (by rw [hgen]; push_cast; omega)
        (by omega)
        (by rw [htot]; push_cast; omega)
        htr'

/-- An aborted loop leaves the job published as `failed`. -/
theorem runFiles_aborted_status (out : String) :
    ∀ (files : List FileJob) (idx : ℕ) (s : WorkerState),
      (runFiles out idx files s).2 = true →
      (runFiles out idx files s).1.job.status = .failed := by
  intro files
  induction files with
  | nil => intro idx s h; exact absurd h (by simp [runFiles])
  | cons fj rest ih =>
    intro idx s h
    cases h2 : (runFile out idx fj s).2 with
    | false =>
      rw [runFiles_cons_not_aborted out idx fj rest s h2] at h ⊢
      exact ih (idx + 1) _ h
    | true =>
      rw [runFiles_cons_aborted out idx fj rest s h2]
      have hsnd := runFile_snd out idx fj s
      rw [h2] at hsnd
      cases hout : fj.outcome with
      | fatal m => exact (runFile_fatal out idx fj s m hout).2.2.2.1
      | success =>
        rw [hout] at hsnd
        exact absurd hsnd.symm (by simp [FileOutcome.isFatal])
      | recoverable m =>
        rw [hout] at hsnd
        exact absurd hsnd.symm (by simp [FileOutcome.isFatal])

/-- A loop that was not aborted contained no fatal file. -/
theorem runFiles_not_aborted_no_fatal (out : String) :
    ∀ (files : List FileJob) (idx : ℕ) (s : WorkerState),
      (runFiles out idx files s).2 = false →
      ∀ fj ∈ files, fj.outcome.isFatal = false := by
  intro files
  induction files with
  | nil => intro idx s _ fj hfj; exact absurd hfj (by simp)
  | cons g rest ih =>
    intro idx s h fj hfj
    cases h2 : (runFile out idx g s).2 with
    | true =>
      rw [runFiles_cons_aborted out idx g rest s h2] at h
      rw [h2] at h
      exact Bool.noConfusion h
    | false =>
      rcases List.mem_cons.mp hfj with rfl | hfj'
      · exact (runFile_snd out idx fj s).symm.trans h2
      · rw [runFiles_cons_not_aborted out idx g rest s h2] at h
        exact ih (idx + 1) _ h fj hfj'

/-- At most one output mapping per queued file. -/
theorem successPairs_length_le (out : String) (files : List FileJob) :
    (successPairs out files).length ≤ files.length := by
  simp only [successPairs, List.length_map]
  exact List.length_filter_le _ _

/-- Every archive-relative name among the output mappings comes from a
successfully converted file, with the extension replaced by `.mp3`. -/
theorem mem_snd_successPairs {out name : String} {files : List FileJob}
    (h : name ∈ (successPairs out files).map Prod.snd) :
    ∃ fj ∈ files, fj.outcome = .success ∧ name = withSuffixMp3 fj.relative := by
  simp only [successPairs, List.map_map, List.mem_map] at h
  obtain ⟨fj, hmem, heq⟩ := h
  rw [List.mem_filter] at hmem
  refine ⟨fj, hmem.1, ?_, heq.symm⟩
  cases hout : fj.outcome with
  | success => rfl
  | fatal m => rw [hout] at hmem; exact absurd hmem.2 (by simp [FileOutcome.isFatal, FileOutcome.isSuccess])
  | recoverable m => rw [hout] at hmem; exact absurd hmem.2 (by simp [FileOutcome.isFatal, FileOutcome.isSuccess])

/-- A string ending in `.mp3` is not the error-report entry name. -/
theorem append_mp3_ne_report (x : String) : x ++ ".mp3" ≠ "conversion_report.txt" := by
  intro h
  have hd : x.data ++ ".mp3".data = "conversion_report.txt".data := by
    rw [← String.data_append, h]
  have h4 : (x.data ++ ".mp3".data).getLast? = some 't' := by
    rw [hd]
    rfl
  rw [show (".mp3".data : List Char) = ['.', 'm', 'p'] ++ ['3'] from rfl, ← List.append_assoc,
    List.getLast?_concat] at h4
  injection h4 with h5
  exact absurd h5 (by decide)

/-- Archive-relative names always end in `.mp3`, so they never collide
with `conversion_report.txt`. -/
theorem withSuffixMp3_ne_report (s : String) :
    withSuffixMp3 s ≠ "conversion_report.txt" :=
  append_mp3_ne_report (dirPart s ++ pyStem (baseName s))

/-! ### Claim theorems -/

/-- C1: for a job whose worker runs the per-file loop over all `n =
total_files` queued files without a fatal capability error, after the
loop `processed_files = n` and `0 ≤ converted ≤ n` (with `total_files`
still `n`), the final status is `completed` if and only if
`converted ≥ 1`, and it is `failed` exactly otherwise (so even when
some files failed but at least one succeeded the job is completed). -/
theorem c1_post_loop_counters_and_status (out : String) (files : List FileJob)
    (init : ConversionJob)
    (htot : init.total_files = (files.length : ℤ))
    (hp0 : init.processed_files = 0) (hc0 : init.converted = 0)
    (hnf : ∀ fj ∈ files, fj.outcome.isFatal = false) :
    (processJob out files init).1.job.processed_files = (files.length : ℤ) ∧
    (processJob out files init).1.job.total_files = (files.length : ℤ) ∧
    0 ≤ (processJob out files init).1.job.converted ∧
    (processJob out files init).1.job.converted ≤ (files.length : ℤ) ∧
    ((processJob out files init).1.job.status = .completed ↔
      1 ≤ (processJob out files init).1.job.converted) ∧
    ((processJob out files init).1.job.status = .failed ↔
      (processJob out files init).1.job.converted < 1) := by
  have e1 : (startState init).job.processed_files = ((1 : ℕ) : ℤ) - 1 := by
    simp [startState, hp0]
  have e2 : (startState init).job.converted = ((startState init).generated.length : ℤ) := by
    simp [startState, hc0]
  have e3 : (startState init).job.errors = (startState init).errors := by
    simp [startState]
  obtain ⟨r1, r2, r3, r4, r5, r6, r7⟩ :=
    runFiles_no_fatal out files 1 (startState init) hnf e1 e2 e3
  have htot2 : (runFiles out 1 files (startState init)).1.job.total_files =
      (files.length : ℤ) := by
    rw [r6]
    simp [startState, htot]
  have hgen2 : (runFiles out 1 files (startState init)).1.generated =
      successPairs out files := by
    rw [r3]
    simp [startState]
  rw [processJob_not_aborted out files init r1]
  by_cases hge : (runFiles out 1 files (startState init)).1.generated = []
  · obtain ⟨f1, f2, f3, f4, f5, f6, f7, f8, f9⟩ :=
      finishJob_empty out (runFiles out 1 files (startState init)).1 hge
    refine ⟨?_, ?_, ?_, ?_, ?_, ?_⟩
    · rw [f4, r2]; push_cast; ring
    · rw [f5, htot2]
    · rw [f3, r4, hge]; simp
    · rw [f3, r4, hge]; simp
    · rw [f2, f3, r4, hge]
      simp
    · rw [f2, f3, r4, hge]
      simp
  · obtain ⟨g1, g2, g3, g4, g5, g6, g7, g8, g9, g10, g11⟩ :=
      finishJob_nonempty out (runFiles out 1 files (startState init)).1 hge
    have hlen1 : 1 ≤ (runFiles out 1 files (startState init)).1.generated.length :=
      List.length_pos.mpr hge
    refine ⟨?_, ?_, ?_, ?_, ?_, ?_⟩
    · rw [g6, r2]; push_cast; ring
    · rw [g7, htot2]
    · rw [g5, r4]; positivity
    · rw [g5, r4, hgen2]
      exact_mod_cast successPairs_length_le out files
    · rw [g2, g5, r4]
      simp only [true_iff]
      exact_mod_cast hlen1
    · rw [g2, g5, r4]
      constructor
      · intro h
        exact absurd h (by simp)
      · intro h
        exact absurd h (by omega)

/-- C1 witness: a two-file batch (one success, one recoverable
failure) ends with `processed_files = 2`, `converted = 1` and status
`completed`. -/
theorem c1_witness :
    ((mkJob "j" 2 none []).total_files = (([⟨"a.mp4", [], .success⟩,
        ⟨"b.mp4", [], .recoverable "no audio"⟩] : List FileJob).length : ℤ) ∧
      (∀ fj ∈ ([⟨"a.mp4", [], .success⟩,
        ⟨"b.mp4", [], .recoverable "no audio"⟩] : List FileJob),
        fj.outcome.isFatal = false)) ∧
    ((processJob "out" [⟨"a.mp4", [], .success⟩,
        ⟨"b.mp4", [], .recoverable "no audio"⟩] (mkJob "j" 2 none [])).1.job.processed_files =
      (([⟨"a.mp4", [], .success⟩, ⟨"b.mp4", [], .recoverable "no audio"⟩] :
        List FileJob).length : ℤ) ∧
      (processJob "out" [⟨"a.mp4", [], .success⟩,
        ⟨"b.mp4", [], .recoverable "no audio"⟩] (mkJob "j" 2 none [])).1.job.total_files =
      (([⟨"a.mp4", [], .success⟩, ⟨"b.mp4", [], .recoverable "no audio"⟩] :
        List FileJob).length : ℤ) ∧
      0 ≤ (processJob "out" [⟨"a.mp4", [], .success⟩,
        ⟨"b.mp4", [], .recoverable "no audio"⟩] (mkJob "j" 2 none [])).1.job.converted ∧
      (processJob "out" [⟨"a.mp4", [], .success⟩,
        ⟨"b.mp4", [], .recoverable "no audio"⟩] (mkJob "j" 2 none [])).1.job.converted ≤
      (([⟨"a.mp4", [], .success⟩, ⟨"b.mp4", [], .recoverable "no audio"⟩] :
        List FileJob).length : ℤ) ∧
      ((processJob "out" [⟨"a.mp4", [], .success⟩,
          ⟨"b.mp4", [], .recoverable "no audio"⟩] (mkJob "j" 2 none [])).1.job.status =
        .completed ↔
        1 ≤ (processJob "out" [⟨"a.mp4", [], .success⟩,
          ⟨"b.mp4", [], .recoverable "no audio"⟩] (mkJob "j" 2 none [])).1.job.converted) ∧
      ((processJob "out" [⟨"a.mp4", [], .success⟩,
          ⟨"b.mp4", [], .recoverable "no audio"⟩] (mkJob "j" 2 none [])).1.job.status =
        .failed ↔
        (processJob "out" [⟨"a.mp4", [], .success⟩,
          ⟨"b.mp4", [], .recoverable "no audio"⟩] (mkJob "j" 2 none [])).1.job.converted <
          1)) :=
  ⟨⟨by decide, by decide⟩,
    c1_post_loop_counters_and_status "out"
      [⟨"a.mp4", [], .success⟩, ⟨"b.mp4", [], .recoverable "no audio"⟩]
      (mkJob "j" 2 none []) (by decide) (by decide) (by decide) (by decide)⟩

/-- C2 counterexample: in a one-file batch whose file succeeds, the
store update `converted = len(generated)` is published before the
`finally` update that advances `processed_files`, so a concurrent
reader can observe `converted = 1` while `processed_files = 0`: the
claimed invariant `converted ≤ processed_files` fails at an observable
state (the third published update). -/
theorem c2_counterexample :
    (((processJob "out" [⟨"a.mp4", [], .success⟩] (mkJob "j" 1 none [])).1.trace.get? 2).map
        (fun j => (j.converted, j.processed_files)) = some (1, 0)) ∧
    ¬ (∀ j ∈ (mkJob "j" 1 none []) ::
        (processJob "out" [⟨"a.mp4", [], .success⟩] (mkJob "j" 1 none [])).1.trace,
        0 ≤ j.converted ∧ 0 ≤ j.processed_files ∧ 0 ≤ j.total_files ∧
          j.processed_files ≤ j.total_files ∧ j.converted ≤ j.processed_files) := by
  constructor
  · decide
  · decide

/-- C2 (amended): at every observable state of a job (the created
record and every lock-protected store update), the counters satisfy
`processed_files ≤ total_files`, all three counters are non-negative,
and `converted ≤ processed_files + 1`; `converted ≤ processed_files`
itself can transiently fail, by exactly one, between a successful
file's `converted` update and that file's final per-file update. -/
theorem c2_observable_invariant_amended (out : String) (files : List FileJob)
    (init : ConversionJob)
    (htot : init.total_files = (files.length : ℤ))
    (hp0 : init.processed_files = 0) (hc0 : init.converted = 0) :
    ∀ j ∈ init :: (processJob out files init).1.trace, JobInv j := by
  intro j hj
  rcases List.mem_cons.mp hj with rfl | hj
  · simp only [JobInv]
    omega
  · have htr0 : ∀ k ∈ (startState init).trace, JobInv k := by
      intro k hk
      simp only [startState, pushJob_trace, List.nil_append, List.mem_singleton] at hk
      subst hk
      simp [JobInv]
      omega
    have e1 : (startState init).job.processed_files = ((1 : ℕ) : ℤ) - 1 := by
      simp [startState, hp0]
    have e2 : (startState init).job.converted = ((startState init).generated.length : ℤ) := by
      simp [startState, hc0]
    have e4 : (((startState init).generated.length : ℕ) : ℤ) ≤ ((1 : ℕ) : ℤ) - 1 := by
      simp [startState]
    have e5 : ((1 : ℕ) : ℤ) + files.length - 1 ≤ (startState init).job.total_files := by
      simp [startState, htot]
    obtain ⟨htr2, hinv2⟩ :=
      runFiles_trace_inv out files 1 (startState init) e1 e2 e4 (le_refl 1) e5 htr0
    cases h2 : (runFiles out 1 files (startState init)).2 with
    | true =>
      rw [processJob_aborted out files init h2] at hj
      exact htr2 j hj
    | false =>
      rw [processJob_not_aborted out files init h2] at hj
      by_cases hge : (runFiles out 1 files (startState init)).1.generated = []
      · obtain ⟨f1, f2, f3, f4, f5, f6, f7, f8, f9⟩ :=
          finishJob_empty out (runFiles out 1 files (startState init)).1 hge
        rw [f9] at hj
        rcases List.mem_append.mp hj with hj | hj
        · exact htr2 j hj
        · rw [List.mem_singleton] at hj
          subst hj
          obtain ⟨a1, a2, a3, a4, a5⟩ := hinv2
          simp only [JobInv]
          rw [f3, f4, f5]
          exact ⟨a1, a2, a3, a4, a5⟩
      · obtain ⟨g1, g2, g3, g4, g5, g6, g7, g8, g9, g10, g11⟩ :=
          finishJob_nonempty out (runFiles out 1 files (startState init)).1 hge
        rw [g11] at hj
        rcases List.mem_append.mp hj with hj | hj
        · exact htr2 j hj
        · rw [List.mem_singleton] at hj
          subst hj
          obtain ⟨a1, a2, a3, a4, a5⟩ := hinv2
          simp only [JobInv]
          rw [g5, g6, g7]
          exact ⟨a1, a2, a3, a4, a5⟩

/-- C2 witness: the amended invariant holds at every observable state
of the one-file success batch. -/
theorem c2_witness :
    ((mkJob "j" 1 none []).total_files =
        (([⟨"a.mp4", [], .success⟩] : List FileJob).length : ℤ) ∧
      (mkJob "j" 1 none []).processed_files = 0 ∧ (mkJob "j" 1 none []).converted = 0) ∧
    (∀ j ∈ (mkJob "j" 1 none []) ::
        (processJob "out" [⟨"a.mp4", [], .success⟩] (mkJob "j" 1 none [])).1.trace,
      JobInv j) :=
  ⟨⟨by decide, by decide, by decide⟩,
    c2_observable_invariant_amended "out" [⟨"a.mp4", [], .success⟩] (mkJob "j" 1 none [])
      (by decide) (by decide) (by decide)⟩

/-- C5: when converting a file raises the capability-unavailable
`ModuleNotFoundError`, the worker records the error, publishes the
message and status `failed`, and returns immediately: the run equals
the run truncated after the fatal file, no archive is produced, the
fatal file is the last one counted, and when files remained queued the
job ends with `processed_files < total_files`.  (Non-fatal outcomes
never abort: see `runFiles_no_fatal` and C1.) -/
theorem c5_fatal_abort (out : String) (pre post : List FileJob) (fj : FileJob)
    (msg : String) (init : ConversionJob)
    (htot : init.total_files = ((pre ++ fj :: post).length : ℤ))
    (hp0 : init.processed_files = 0) (hc0 : init.converted = 0)
    (hpre : ∀ g ∈ pre, g.outcome.isFatal = false)
    (hfj : fj.outcome = .fatal msg) :
    processJob out (pre ++ fj :: post) init = processJob out (pre ++ [fj]) init ∧
    (processJob out (pre ++ fj :: post) init).1.job.status = .failed ∧
    (processJob out (pre ++ fj :: post) init).1.job.message = some msg ∧
    msg ∈ (processJob out (pre ++ fj :: post) init).1.job.errors ∧
    (processJob out (pre ++ fj :: post) init).1.job.processed_files =
      (pre.length : ℤ) + 1 ∧
    (processJob out (pre ++ fj :: post) init).2 = none ∧
    (post ≠ [] →
      (processJob out (pre ++ fj :: post) init).1.job.processed_files <
        (processJob out (pre ++ fj :: post) init).1.job.total_files) := by
  have e1 : (startState init).job.processed_files = ((1 : ℕ) : ℤ) - 1 := by
    simp [startState, hp0]
  have e2 : (startState init).job.converted = ((startState init).generated.length : ℤ) := by
    simp [startState, hc0]
  have e3 : (startState init).job.errors = (startState init).errors := by
    simp [startState]
  obtain ⟨r1, r2, r3, r4, r5, r6, r7⟩ :=
    runFiles_no_fatal out pre 1 (startState init) hpre e1 e2 e3
  have hrun : runFiles out 1 (pre ++ fj :: post) (startState init) =
      runFile out (1 + pre.length) fj (runFiles out 1 pre (startState init)).1 :=
    runFiles_fatal_at out pre 1 (startState init) fj post msg hpre hfj
  have hrun1 : runFiles out 1 (pre ++ [fj]) (startState init) =
      runFile out (1 + pre.length) fj (runFiles out 1 pre (startState init)).1 :=
    runFiles_fatal_at out pre 1 (startState init) fj [] msg hpre hfj
  obtain ⟨b1, b2, b3, b4, b5, b6, b7, b8, b9, b10, b11⟩ :=
    runFile_fatal out (1 + pre.length) fj (runFiles out 1 pre (startState init)).1 msg hfj
  have habort : (runFiles out 1 (pre ++ fj :: post) (startState init)).2 = true := by
    rw [hrun]; exact b1
  have habort1 : (runFiles out 1 (pre ++ [fj]) (startState init)).2 = true := by
    rw [hrun1]; exact b1
  have hPJ := processJob_aborted out (pre ++ fj :: post) init habort
  have hPJ1 := processJob_aborted out (pre ++ [fj]) init habort1
  have hfst : (processJob out (pre ++ fj :: post) init).1 =
      (runFile out (1 + pre.length) fj (runFiles out 1 pre (startState init)).1).1 := by
    rw [hPJ, hrun]
  have htotS : (runFiles out 1 pre (startState init)).1.job.total_files =
      ((pre ++ fj :: post).length : ℤ) := by
    rw [r6]
    simp [startState, htot]
  refine ⟨?_, ?_, ?_, ?_, ?_, ?_, ?_⟩
  · rw [hPJ, hPJ1, hrun, hrun1]
  · rw [hfst]; exact b4
  · rw [hfst]; exact b5
  · rw [hfst, b6]; simp
  · rw [hfst, b7]; push_cast; ring
  · rw [hPJ]
  · intro hpost
    have hpl : 1 ≤ post.length := List.length_pos.mpr hpost
    rw [hfst, b7, b11, htotS]
    simp only [List.length_append, List.length_cons]
    push_cast
    omega

/-- C5 witness: in a three-file batch whose second file hits the fatal
capability error, the job fails with the fatal message, counts two
processed files of three, produces no archive, and the third file is
never attempted. -/
theorem c5_witness :
    processJob "out" ([⟨"a.mp4", [], .success⟩] ++ ⟨"b.mp4", [], .fatal "moviepy missing"⟩ ::
        [⟨"c.mp4", [], .success⟩]) (mkJob "j" 3 none []) =
      processJob "out" ([⟨"a.mp4", [], .success⟩] ++ [⟨"b.mp4", [], .fatal "moviepy missing"⟩])
        (mkJob "j" 3 none []) ∧
    (processJob "out" ([⟨"a.mp4", [], .success⟩] ++ ⟨"b.mp4", [], .fatal "moviepy missing"⟩ ::
        [⟨"c.mp4", [], .success⟩]) (mkJob "j" 3 none [])).1.job.status = .failed ∧
    (processJob "out" ([⟨"a.mp4", [], .success⟩] ++ ⟨"b.mp4", [], .fatal "moviepy missing"⟩ ::
        [⟨"c.mp4", [], .success⟩]) (mkJob "j" 3 none [])).1.job.message =
      some "moviepy missing" ∧
    "moviepy missing" ∈ (processJob "out" ([⟨"a.mp4", [], .success⟩] ++
        ⟨"b.mp4", [], .fatal "moviepy missing"⟩ :: [⟨"c.mp4", [], .success⟩])
        (mkJob "j" 3 none [])).1.job.errors ∧
    (processJob "out" ([⟨"a.mp4", [], .success⟩] ++ ⟨"b.mp4", [], .fatal "moviepy missing"⟩ ::
        [⟨"c.mp4", [], .success⟩]) (mkJob "j" 3 none [])).1.job.processed_files =
      (([⟨"a.mp4", [], .success⟩] : List FileJob).length : ℤ) + 1 ∧
    (processJob "out" ([⟨"a.mp4", [], .success⟩] ++ ⟨"b.mp4", [], .fatal "moviepy missing"⟩ ::
        [⟨"c.mp4", [], .success⟩]) (mkJob "j" 3 none [])).2 = none ∧
    (([⟨"c.mp4", [], .success⟩] : List FileJob) ≠ [] →
      (processJob "out" ([⟨"a.mp4", [], .success⟩] ++ ⟨"b.mp4", [], .fatal "moviepy missing"⟩ ::
          [⟨"c.mp4", [], .success⟩]) (mkJob "j" 3 none [])).1.job.processed_files <
        (processJob "out" ([⟨"a.mp4", [], .success⟩] ++
            ⟨"b.mp4", [], .fatal "moviepy missing"⟩ :: [⟨"c.mp4", [], .success⟩])
            (mkJob "j" 3 none [])).1.job.total_files) :=
  c5_fatal_abort "out" [⟨"a.mp4", [], .success⟩] [⟨"c.mp4", [], .success⟩]
    ⟨"b.mp4", [], .fatal "moviepy missing"⟩ "moviepy missing" (mkJob "j" 3 none [])
    (by decide) (by decide) (by decide) (by decide) (by decide)

/-- C6: for the queued file at 1-based index `i`, a recoverable
failure appends `"<relative path>: <error detail>"` to the error list,
leaves `converted` and the output mappings unchanged, resets
`current_progress` to `0` and continues; a success appends the output
mapping, increments `converted` by exactly one and sets
`current_progress = 100`; and in every branch the worker publishes
`processed_files = i` together with the current error list after the
file. -/
theorem c6_per_file_behavior (out : String) (idx : ℕ) (fj : FileJob) (s : WorkerState)
    (hsc : s.job.converted = (s.generated.length : ℤ)) :
    ((runFile out idx fj s).1.job.processed_files = (idx : ℤ) ∧
      (runFile out idx fj s).1.job.errors = (runFile out idx fj s).1.errors) ∧
    (∀ msg, fj.outcome = .recoverable msg →
      (runFile out idx fj s).1.errors = s.errors ++ [fj.relative ++ ": " ++ msg] ∧
      (runFile out idx fj s).1.job.converted = s.job.converted ∧
      (runFile out idx fj s).1.generated = s.generated ∧
      (runFile out idx fj s).1.job.current_progress = 0 ∧
      (runFile out idx fj s).2 = false) ∧
    (fj.outcome = .success →
      (runFile out idx fj s).1.generated =
        s.generated ++ [(out ++ "/" ++ withSuffixMp3 fj.relative, withSuffixMp3 fj.relative)] ∧
      (runFile out idx fj s).1.job.converted = s.job.converted + 1 ∧
      (runFile out idx fj s).1.job.current_progress = 100 ∧
      (runFile out idx fj s).2 = false) := by
  cases hout : fj.outcome with
  | success =>
    obtain ⟨h2, herr, hgen, hst, hmsg, hjerr, hproc, hcf, hcp, hconv, htot2, hgf, hdp⟩ :=
      runFile_success out idx fj s hout
    refine ⟨⟨hproc, hjerr.trans herr.symm⟩, ?_, ?_⟩
    · intro m hm
      exact absurd hm (by simp)
    · intro _
      exact ⟨hgen, by rw [hconv, hsc], hcp, h2⟩
  | fatal m =>
    obtain ⟨h2, herr, hgen, hst, hmsg, hjerr, hproc, hcf, hcp, hconv, htot2⟩ :=
      runFile_fatal out idx fj s m hout
    refine ⟨⟨hproc, hjerr.trans herr.symm⟩, ?_, ?_⟩
    · intro m2 hm
      exact absurd hm (by simp)
    · intro hm
      exact absurd hm (by simp)
  | recoverable m =>
    obtain ⟨h2, herr, hgen, hst, hmsg, hjerr, hproc, hcf, hcp, hconv, htot2, hgf, hdp⟩ :=
      runFile_recoverable out idx fj s m hout
    refine ⟨⟨hproc, hjerr.trans herr.symm⟩, ?_, ?_⟩
    · intro m2 hm
      injection hm with hm2
      subst hm2
      exact ⟨herr, hconv, hgen, hcp, h2⟩
    · intro hm
      exact absurd hm (by simp)

/-- C6 witness: the per-file contract instantiated for a successful
first file starting from a fresh worker state. -/
theorem c6_witness :
    ((runFile "out" 1 ⟨"a.mp4", [], .success⟩
        ⟨mkJob "j" 2 none [], [], [], []⟩).1.job.processed_files = ((1 : ℕ) : ℤ) ∧
      (runFile "out" 1 ⟨"a.mp4", [], .success⟩
        ⟨mkJob "j" 2 none [], [], [], []⟩).1.job.errors =
      (runFile "out" 1 ⟨"a.mp4", [], .success⟩
        ⟨mkJob "j" 2 none [], [], [], []⟩).1.errors) ∧
    (∀ msg, (⟨"a.mp4", [], .success⟩ : FileJob).outcome = .recoverable msg →
      (runFile "out" 1 ⟨"a.mp4", [], .success⟩ ⟨mkJob "j" 2 none [], [], [], []⟩).1.errors =
        (⟨mkJob "j" 2 none [], [], [], []⟩ : WorkerState).errors ++
          [(⟨"a.mp4", [], .success⟩ : FileJob).relative ++ ": " ++ msg] ∧
      (runFile "out" 1 ⟨"a.mp4", [], .success⟩
        ⟨mkJob "j" 2 none [], [], [], []⟩).1.job.converted =
        (⟨mkJob "j" 2 none [], [], [], []⟩ : WorkerState).job.converted ∧
      (runFile "out" 1 ⟨"a.mp4", [], .success⟩
        ⟨mkJob "j" 2 none [], [], [], []⟩).1.generated =
        (⟨mkJob "j" 2 none [], [], [], []⟩ : WorkerState).generated ∧
      (runFile "out" 1 ⟨"a.mp4", [], .success⟩
        ⟨mkJob "j" 2 none [], [], [], []⟩).1.job.current_progress = 0 ∧
      (runFile "out" 1 ⟨"a.mp4", [], .success⟩ ⟨mkJob "j" 2 none [], [], [], []⟩).2 = false) ∧
    ((⟨"a.mp4", [], .success⟩ : FileJob).outcome = .success →
      (runFile "out" 1 ⟨"a.mp4", [], .success⟩
        ⟨mkJob "j" 2 none [], [], [], []⟩).1.generated =
        (⟨mkJob "j" 2 none [], [], [], []⟩ : WorkerState).generated ++
          [("out" ++ "/" ++ withSuffixMp3 (⟨"a.mp4", [], .success⟩ : FileJob).relative,
            withSuffixMp3 (⟨"a.mp4", [], .success⟩ : FileJob).relative)] ∧
      (runFile "out" 1 ⟨"a.mp4", [], .success⟩
        ⟨mkJob "j" 2 none [], [], [], []⟩).1.job.converted =
        (⟨mkJob "j" 2 none [], [], [], []⟩ : WorkerState).job.converted + 1 ∧
      (runFile "out" 1 ⟨"a.mp4", [], .success⟩
        ⟨mkJob "j" 2 none [], [], [], []⟩).1.job.current_progress = 100 ∧
      (runFile "out" 1 ⟨"a.mp4", [], .success⟩ ⟨mkJob "j" 2 none [], [], [], []⟩).2 = false) :=
  c6_per_file_behavior "out" 1 ⟨"a.mp4", [], .success⟩
    ⟨mkJob "j" 2 none [], [], [], []⟩ (by decide)

/-- C7: every completed job ships an archive whose entries contain
every path of `generated_files` under exactly that name; every such
name is a successfully converted file's original relative upload path
with its extension replaced by `.mp3`; and the archive contains the
entry `conversion_report.txt` exactly when the job's error list is
non-empty. -/
theorem c7_archive_roundtrip (out : String) (files : List FileJob) (init : ConversionJob)
    (hp0 : init.processed_files = 0) (hc0 : init.converted = 0)
    (hcomp : (processJob out files init).1.job.status = .completed) :
    ∃ entries, (processJob out files init).2 = some entries ∧
      (∀ name ∈ (processJob out files init).1.job.generated_files, name ∈ entries) ∧
      (∀ name ∈ (processJob out files init).1.job.generated_files,
        ∃ fj ∈ files, fj.outcome = .success ∧ name = withSuffixMp3 fj.relative) ∧
      ("conversion_report.txt" ∈ entries ↔
        (processJob out files init).1.job.errors ≠ []) := by
  cases h2 : (runFiles out 1 files (startState init)).2 with
  | true =>
    rw [processJob_aborted out files init h2] at hcomp
    have hfail := runFiles_aborted_status out files 1 (startState init) h2
    have hcomp' : (runFiles out 1 files (startState init)).1.job.status = .completed := hcomp
    rw [hfail] at hcomp'
    exact absurd hcomp' (by simp)
  | false =>
    have hnf := runFiles_not_aborted_no_fatal out files 1 (startState init) h2
    have e1 : (startState init).job.processed_files = ((1 : ℕ) : ℤ) - 1 := by
      simp [startState, hp0]
    have e2 : (startState init).job.converted = ((startState init).generated.length : ℤ) := by
      simp [startState, hc0]
    have e3 : (startState init).job.errors = (startState init).errors := by
      simp [startState]
    obtain ⟨r1, r2, r3, r4, r5, r6, r7⟩ :=
      runFiles_no_fatal out files 1 (startState init) hnf e1 e2 e3
    have hgen2 : (runFiles out 1 files (startState init)).1.generated =
        successPairs out files := by
      rw [r3]
      simp [startState]
    rw [processJob_not_aborted out files init h2] at hcomp ⊢
    by_cases hge : (runFiles out 1 files (startState init)).1.generated = []
    · obtain ⟨f1, f2, f3, f4, f5, f6, f7, f8, f9⟩ :=
        finishJob_empty out (runFiles out 1 files (startState init)).1 hge
      exact absurd (f2.symm.trans hcomp) (by simp)
    · obtain ⟨g1, g2, g3, g4, g5, g6, g7, g8, g9, g10, g11⟩ :=
        finishJob_nonempty out (runFiles out 1 files (startState init)).1 hge
      refine ⟨zipEntriesOf (runFiles out 1 files (startState init)).1.generated
          (runFiles out 1 files (startState init)).1.errors, g1, ?_, ?_, ?_⟩
      · intro name hname
        rw [g3] at hname
        unfold zipEntriesOf
        exact List.mem_append_left _ hname
      · intro name hname
        rw [g3, hgen2] at hname
        exact mem_snd_successPairs hname
      · rw [g8, r5]
        unfold zipEntriesOf
        constructor
        · intro hmem hnil
          rw [hnil] at hmem
          simp only [if_pos] at hmem
          rw [List.append_nil, hgen2] at hmem
          obtain ⟨fj, _, _, heq⟩ := mem_snd_successPairs hmem
          exact withSuffixMp3_ne_report fj.relative heq.symm
        · intro hne
          rw [if_neg hne]
          exact List.mem_append_right _ (by simp)

/-- C7 witness: a completed two-file batch (one success, one
recoverable failure) has its generated file in the archive and a
`conversion_report.txt` entry because one error was recorded. -/
theorem c7_witness :
    ∃ entries, (processJob "out" [⟨"a.mp4", [], .success⟩,
        ⟨"b.mp4", [], .recoverable "bad file"⟩] (mkJob "j" 2 none [])).2 = some entries ∧
      (∀ name ∈ (processJob "out" [⟨"a.mp4", [], .success⟩,
          ⟨"b.mp4", [], .recoverable "bad file"⟩]
          (mkJob "j" 2 none [])).1.job.generated_files, name ∈ entries) ∧
      (∀ name ∈ (processJob "out" [⟨"a.mp4", [], .success⟩,
          ⟨"b.mp4", [], .recoverable "bad file"⟩]
          (mkJob "j" 2 none [])).1.job.generated_files,
        ∃ fj ∈ ([⟨"a.mp4", [], .success⟩, ⟨"b.mp4", [], .recoverable "bad file"⟩] :
          List FileJob), fj.outcome = .success ∧ name = withSuffixMp3 fj.relative) ∧
      ("conversion_report.txt" ∈ entries ↔
        (processJob "out" [⟨"a.mp4", [], .success⟩,
          ⟨"b.mp4", [], .recoverable "bad file"⟩]
          (mkJob "j" 2 none [])).1.job.errors ≠ []) :=
  c7_archive_roundtrip "out" [⟨"a.mp4", [], .success⟩, ⟨"b.mp4", [], .recoverable "bad file"⟩]
    (mkJob "j" 2 none []) (by decide) (by decide) (by decide)

/-- Python rounding is monotone. -/
theorem pyRound_mono {a b : ℚ} (h : a ≤ b) : pyRound a ≤ pyRound b := by
  have hf : (⌊a⌋ : ℤ) ≤ ⌊b⌋ := Int.floor_mono h
  rcases lt_or_eq_of_le hf with hlt | heq
  · have ha : pyRound a ≤ ⌊a⌋ + 1 := by
      unfold pyRound
      split_ifs <;> omega
    have hb2 : ⌊b⌋ ≤ pyRound b := by
      unfold pyRound
      split_ifs <;> omega
    omega
  · unfold pyRound
    rw [← heq]
    split_ifs <;> first | omega | linarith

/-- The published percentage is a monotone function of the derived
fraction. -/
theorem percentOf_mono {f g : ℚ} (h : f ≤ g) : percentOf f ≤ percentOf g := by
  unfold percentOf clamp100
  have hr : pyRound (f * 100) ≤ pyRound (g * 100) :=
    pyRound_mono (mul_le_mul_of_nonneg_right h (by norm_num))
  exact max_le_max (le_refl 0) (min_le_min (le_refl 100) hr)

/-- C3: for every progress event delivered to the normalizer, a direct
fraction `f` publishes `round(100 * f)` clamped to `[0, 100]`; failing
that, a completed count with a truthy total publishes
`round(100 * completed / total)` clamped; otherwise the event is
dropped with no update and no error, preserving the last known
percentage.  In particular `{fraction: 0.5}` publishes 50,
`{completed: 3, total: 12}` publishes 25, `{}` publishes nothing, and
`{fraction: 1.4}` publishes 100. -/
theorem c3_progress_normalizer :
    (∀ (b : Bar) (f : ℚ), b.fraction = some f →
      callbackPercent b = some (clamp100 (pyRound (100 * f)))) ∧
    (∀ (b : Bar) (c : ℚ), b.fraction = none → barCompleted b = some c →
      barTotal b ≠ 0 →
      callbackPercent b = some (clamp100 (pyRound (100 * (c / barTotal b))))) ∧
    (∀ b : Bar, b.fraction = none → (barCompleted b = none ∨ barTotal b = 0) →
      callbackPercent b = none) ∧
    (∀ (s : WorkerState) (b : Bar), callbackPercent b = none → applyEvent s b = s) ∧
    callbackPercent { Bar.empty with fraction := some (1 / 2) } = some 50 ∧
    callbackPercent { Bar.empty with index := some 3, total := some 12 } = some 25 ∧
    callbackPercent Bar.empty = none ∧
    callbackPercent { Bar.empty with fraction := some (7 / 5) } = some 100 := by
  refine ⟨?_, ?_, ?_, ?_, ?_, ?_, ?_, ?_⟩
  · intro b f hb
    rw [callbackPercent, callbackFraction_of_some b f hb, Option.map_some', percentOf,
      mul_comm f 100]
  · intro b c hb hc ht
    rw [callbackPercent, callbackFraction_of_ratio b c hb hc ht, Option.map_some', percentOf,
      mul_comm (c / barTotal b) 100]
  · intro b hb h
    rw [callbackPercent, callbackFraction_of_none b hb h]
    rfl
  · intro s b h
    unfold applyEvent
    rw [h]
  · exact callbackPercent_fraction _ (1 / 2) 50 50 rfl (by norm_num) (by decide)
  · exact callbackPercent_ratio _ 3 12 25 25 rfl rfl
      (by norm_num [barTotal, pyOr, Bar.empty]) (by norm_num) (by norm_num) (by decide)
  · decide
  · exact callbackPercent_fraction _ (7 / 5) 140 100 rfl (by norm_num) (by decide)

/-- C3 witness: the direct-fraction clause applied to the concrete
event `{fraction: 0.5}`. -/
theorem c3_witness :
    callbackPercent { Bar.empty with fraction := some (1 / 2) } =
      some (clamp100 (pyRound (100 * (1 / 2)))) :=
  c3_progress_normalizer.1 { Bar.empty with fraction := some (1 / 2) } (1 / 2) rfl

/-- C4 counterexample: the normalizer publishes each event's
percentage independently, so within a single file a later event with a
smaller fraction publishes a smaller percentage: delivering
`{fraction: 0.8}` then `{fraction: 0.3}` publishes 80 then 30, and the
job's published `current_progress` sequence for the file,
`[0, 80, 30, 30, 100]`, is not monotonically non-decreasing. -/
theorem c4_counterexample :
    publishedSeq [{ Bar.empty with fraction := some (4 / 5) },
      { Bar.empty with fraction := some (3 / 10) }] = [80, 30] ∧
    (runFile "out" 1
        ⟨"a.mp4", [{ Bar.empty with fraction := some (4 / 5) },
          { Bar.empty with fraction := some (3 / 10) }], .success⟩
        ⟨mkJob "j" 1 none [], [], [], []⟩).1.trace.map (fun j => j.current_progress) =
      [0, 80, 30, 30, 100] ∧
    ¬ List.Chain' (fun p q => p ≤ q) [(0 : ℤ), 80, 30, 30, 100] := by
  have hA : callbackPercent { Bar.empty with fraction := some (4 / 5) } = some 80 :=
    callbackPercent_fraction _ (4 / 5) 80 80 rfl (by norm_num) (by decide)
  have hB : callbackPercent { Bar.empty with fraction := some (3 / 10) } = some 30 :=
    callbackPercent_fraction _ (3 / 10) 30 30 rfl (by norm_num) (by decide)
  refine ⟨?_, ?_, ?_⟩
  · simp [publishedSeq, List.filterMap_cons, hA, hB]
  · simp [runFile, applyEvents, applyEvent, hA, hB, pushJob, mkJob]
  · intro hch
    simp only [List.chain'_cons, List.chain'_singleton] at hch
    omega

/-- C4 (amended): the published percentage is a monotone function of
the event's derived fraction, so whenever the progress events of a
file carry non-decreasing derived fractions — as an external decoder
reporting advancing progress does — the published percentages are
monotonically non-decreasing; an event sequence with a decreasing
fraction is published decreasing (see the counterexample). -/
theorem c4_monotone_amended (evs : List Bar)
    (h : List.Chain' (fun f g => f ≤ g) (evs.filterMap callbackFraction)) :
    List.Chain' (fun p q => p ≤ q) (publishedSeq evs) := by
  have hmap : publishedSeq evs = (evs.filterMap callbackFraction).map percentOf := by
    rw [publishedSeq, List.map_filterMap]
    rfl
  rw [hmap, List.chain'_map]
  exact h.imp (fun a b hfg => percentOf_mono hfg)

/-- C4 witness: two events with increasing fractions publish an
increasing percentage sequence. -/
theorem c4_witness :
    List.Chain' (fun p q => p ≤ q)
      (publishedSeq [{ Bar.empty with fraction := some (3 / 10) },
        { Bar.empty with fraction := some (4 / 5) }]) :=
  c4_monotone_amended
    [{ Bar.empty with fraction := some (3 / 10) }, { Bar.empty with fraction := some (4 / 5) }]
    (by
      have h1 : callbackFraction { Bar.empty with fraction := some (3 / 10) } =
          some (3 / 10) := rfl
      have h2 : callbackFraction { Bar.empty with fraction := some (4 / 5) } =
          some (4 / 5) := rfl
      simp only [List.filterMap_cons, List.filterMap_nil, h1, h2]
      simp only [List.chain'_cons, List.chain'_singleton, and_true]
      norm_num)

/-- After `jobs.pop(job_id, None)` the id no longer resolves. -/
theorem lookupJob_removeJob (m : JobMap) (i : String) :
    lookupJob (removeJob m i) i = none := by
  induction m with
  | nil => rfl
  | cons kv rest ih =>
    rcases kv with ⟨k, j⟩
    by_cases hk : k = i
    · simpa [removeJob, List.filter_cons, hk] using ih
    · have hb : (k == i) = false := by simp [hk]
      simp [removeJob, List.filter_cons, hb, lookupJob, hk] at ih ⊢
      exact ih

/-- C8: download is a single-shot destructive read: a request fails as
not-found unless the job exists and is `completed`; the first
successful download of a completed job streams the archive, deletes
the job record and hands its backing temporary directory to cleanup,
so a second request for the same id fails as not-found (and changes
nothing further). -/
theorem c8_download_single_shot (m : JobMap) (job_id : String) :
    ((¬ ∃ job, lookupJob m job_id = some job ∧ job.status = .completed) →
      (download m job_id).1 = .notFound ∧ (download m job_id).2.1 = m) ∧
    (∀ job p, lookupJob m job_id = some job → job.status = .completed →
      job.download_path = some p →
      (download m job_id).1 = .sendFile p ∧
      (download m job_id).2.1 = removeJob m job_id ∧
      (download m job_id).2.2 = job.temp_dir ∧
      lookupJob (download m job_id).2.1 job_id = none ∧
      (download (download m job_id).2.1 job_id).1 = .notFound ∧
      (download (download m job_id).2.1 job_id).2.1 = (download m job_id).2.1) := by
  constructor
  · intro hnc
    cases hl : lookupJob m job_id with
    | none => simp [download, hl]
    | some job =>
      have hst : ¬job.status = .completed := fun hc => hnc ⟨job, hl, hc⟩
      simp [download, hl, hst]
  · intro job p hl hst hdp
    have hdl : download m job_id = (.sendFile p, removeJob m job_id, job.temp_dir) := by
      simp [download, hl, hst, hdp]
    have hrm : lookupJob (removeJob m job_id) job_id = none :=
      lookupJob_removeJob m job_id
    refine ⟨by rw [hdl], by rw [hdl], by rw [hdl], by rw [hdl]; exact hrm, ?_, ?_⟩
    · rw [hdl]
      simp [download, hrm]
    · rw [hdl]
      simp [download, hrm]

/-- C8 witness: the contract applied to a one-job store holding a
completed job. -/
theorem c8_witness :
    (download [("a", { mkJob "a" 1 (some "tmp") [] with
        status := .completed, download_path := some "z.zip" })] "a").1 =
      .sendFile "z.zip" ∧
    (download [("a", { mkJob "a" 1 (some "tmp") [] with
        status := .completed, download_path := some "z.zip" })] "a").2.1 =
      removeJob [("a", { mkJob "a" 1 (some "tmp") [] with
        status := .completed, download_path := some "z.zip" })] "a" ∧
    (download [("a", { mkJob "a" 1 (some "tmp") [] with
        status := .completed, download_path := some "z.zip" })] "a").2.2 =
      ({ mkJob "a" 1 (some "tmp") [] with
        status := .completed, download_path := some "z.zip" } : ConversionJob).temp_dir ∧
    lookupJob (download [("a", { mkJob "a" 1 (some "tmp") [] with
        status := .completed, download_path := some "z.zip" })] "a").2.1 "a" = none ∧
    (download (download [("a", { mkJob "a" 1 (some "tmp") [] with
        status := .completed, download_path := some "z.zip" })] "a").2.1 "a").1 =
      .notFound ∧
    (download (download [("a", { mkJob "a" 1 (some "tmp") [] with
        status := .completed, download_path := some "z.zip" })] "a").2.1 "a").2.1 =
      (download [("a", { mkJob "a" 1 (some "tmp") [] with
        status := .completed, download_path := some "z.zip" })] "a").2.1 :=
  (c8_download_single_shot [("a", { mkJob "a" 1 (some "tmp") [] with
      status := .completed, download_path := some "z.zip" })] "a").2
    { mkJob "a" 1 (some "tmp") [] with status := .completed, download_path := some "z.zip" }
    "z.zip" (by decide) (by decide) (by decide)

/-- Splitting on a separator yields groups free of the separator. -/
theorem splitChars_no_sep (sep : Char) :
    ∀ (cs : List Char) (g : List Char), g ∈ splitChars sep cs → sep ∉ g := by
  intro cs
  induction cs with
  | nil =>
    intro g hg hsep
    simp [splitChars] at hg
    subst hg
    simp at hsep
  | cons c rest ih =>
    intro g hg hsep
    by_cases hc : c = sep
    · rw [splitChars, if_pos hc] at hg
      rcases List.mem_cons.mp hg with rfl | hg
      · simp at hsep
      · exact ih g hg hsep
    · rw [splitChars, if_neg hc] at hg
      cases hsplit : splitChars sep rest with
      | nil =>
        rw [hsplit] at hg
        simp at hg
        subst hg
        simp at hsep
        exact hc hsep.symm
      | cons g0 gs =>
        rw [hsplit] at hg
        rcases List.mem_cons.mp hg with rfl | hg2
        · rcases List.mem_cons.mp hsep with h | h
          · exact hc h.symm
          · exact ih g0 (by rw [hsplit]; exact List.mem_cons_self g0 gs) h
        · exact ih g (by rw [hsplit]; exact List.mem_cons_of_mem g0 hg2) hsep

/-- A non-root pathlib component is never the root marker `"/"`. -/
theorem slash_not_mem_pyTail (filename : String) : "/" ∉ pyTail filename := by
  intro h
  rw [pyTail, List.mem_filter] at h
  obtain ⟨h1, _⟩ := h
  rw [splitSlash, List.mem_map] at h1
  obtain ⟨g, hg, hgeq⟩ := h1
  have hgl : g = ['/'] := by
    have hdata := congrArg String.data hgeq
    simpa using hdata
  exact splitChars_no_sep '/' filename.data g hg (by rw [hgl]; simp)

/-- C9 counterexample: the sanitizer is not safe for every client
filename: for the upload filename `".."` every part is filtered out,
and the fallback `Path(candidate.name)` returns `".."` itself, so the
result contains a `".."` component (and `upload_dir / ".."` escapes
the upload directory). -/
theorem c9_counterexample :
    sanitize_relative_path ".." = [".."] ∧
    ¬ (∀ part ∈ sanitize_relative_path "..",
        part ≠ "" ∧ part ≠ "." ∧ part ≠ "..") := by
  constructor
  · decide
  · decide

/-- C9 (amended): for every client-supplied upload filename that is
relative and has at least one ordinary component (one that is not
empty, `"."` or `".."`), the sanitizer returns the non-empty list of
exactly those ordinary components: no component is empty, `"."` or
`".."`, and no root marker appears, so the saved destination resolves
strictly inside the upload directory.  For filenames with no ordinary
component the fallback can return `".."` itself (see the
counterexample), and an absolute filename keeps its root. -/
theorem c9_sanitizer_amended (filename : String)
    (hrel : isAbs filename = false)
    (hgood : ∃ p ∈ pyTail filename, p ≠ "" ∧ p ≠ "." ∧ p ≠ "..") :
    sanitize_relative_path filename ≠ [] ∧
    (∀ part ∈ sanitize_relative_path filename,
      part ≠ "" ∧ part ≠ "." ∧ part ≠ "..") ∧
    "/" ∉ sanitize_relative_path filename := by
  have hparts : pyParts filename = pyTail filename := by
    simp [pyParts, hrel]
  obtain ⟨p, hp, hpne⟩ := hgood
  have hpred : (!(p == "" || p == "." || p == "..")) = true := by
    simp [hpne.1, hpne.2.1, hpne.2.2]
  have hpsafe : p ∈ (pyParts filename).filter
      (fun q => !(q == "" || q == "." || q == "..")) := by
    rw [hparts]
    exact List.mem_filter.mpr ⟨hp, hpred⟩
  have hsafene : (pyParts filename).filter
      (fun q => !(q == "" || q == "." || q == "..")) ≠ [] :=
    List.ne_nil_of_mem hpsafe
  have hsan : sanitize_relative_path filename =
      (pyParts filename).filter (fun q => !(q == "" || q == "." || q == "..")) := by
    unfold sanitize_relative_path
    rw [if_neg hsafene]
  refine ⟨by rw [hsan]; exact hsafene, ?_, ?_⟩
  · intro part hpart
    rw [hsan, List.mem_filter] at hpart
    have hpr := hpart.2
    simp only [Bool.not_eq_true', Bool.or_eq_false_iff, beq_eq_false_iff_ne] at hpr
    exact ⟨hpr.1.1, hpr.1.2, hpr.2⟩
  · intro hmem
    rw [hsan, hparts] at hmem
    exact slash_not_mem_pyTail filename (List.mem_filter.mp hmem).1

/-- C9 witness: the amended guarantee applied to the relative filename
`"movies/../clip.mp4"`, which has ordinary components. -/
theorem c9_witness :
    sanitize_relative_path "movies/../clip.mp4" ≠ [] ∧
    (∀ part ∈ sanitize_relative_path "movies/../clip.mp4",
      part ≠ "" ∧ part ≠ "." ∧ part ≠ "..") ∧
    "/" ∉ sanitize_relative_path "movies/../clip.mp4" :=
  c9_sanitizer_amended "movies/../clip.mp4" (by decide)
    ⟨"movies", by decide, by decide⟩

/-- C10: with the media library available, `video_to_audio_folder`
returns exactly the output paths of the recognised files whose
conversion succeeded, in folder-iteration order, never raising for a
per-file failure; with the library missing it raises
`ModuleNotFoundError` before attempting any file, whatever the folder
contains. -/
theorem c10_folder_conversion (output_folder audio_format : String)
    (entries : List DirEntry) (convert : String → FolderOutcome) :
    video_to_audio_folder true output_folder audio_format entries convert =
      Except.ok (((iterVideoFiles entries).filter
          (fun e => (convert e.name).isOk)).map
        (fun e => output_folder ++ "/" ++ pyStem e.name ++ "." ++ audio_format)) ∧
    video_to_audio_folder false output_folder audio_format entries convert =
      Except.error moviepyMissingMessage := by
  constructor
  · have hfold : ∀ (l : List DirEntry) (acc : List String),
        l.foldl (fun acc e =>
          match convert e.name with
          | .ok => acc ++ [output_folder ++ "/" ++ pyStem e.name ++ "." ++ audio_format]
          | .fail _ => acc) acc =
        acc ++ (l.filter (fun e => (convert e.name).isOk)).map
          (fun e => output_folder ++ "/" ++ pyStem e.name ++ "." ++ audio_format) := by
      intro l
      induction l with
      | nil => intro acc; simp
      | cons e rest ih =>
        intro acc
        cases hc : convert e.name with
        | ok =>
          simp only [List.foldl_cons, hc, ih, List.filter_cons, FolderOutcome.isOk,
            if_true, List.map_cons]
          simp [List.append_assoc]
        | fail msg =>
          simp only [List.foldl_cons, hc, ih, List.filter_cons, FolderOutcome.isOk]
          simp
    unfold video_to_audio_folder
    rw [if_pos rfl, hfold (iterVideoFiles entries) []]
    simp
  · rfl
